import Mathlib

/-!
Verification of the iTracker Caffe-to-CoreML conversion script
(`Scripts/convert_itracker.py`): a shallow embedding of the model data it
manipulates, of the `expand_facegrid_input` patch, and of `main`'s control
flow, with proofs of the specified properties.
-/

/-- Semantic type of a declared model input: an image, a multi-dimensional
array carrying a shape (the `multiArrayType` field of the CoreML input
description), or anything else. -/
inductive InputType where
  | image : InputType
  | multiArray (shape : List Nat) : InputType
  | other : InputType
  deriving DecidableEq

/-- A declared model input: a name and a semantic type (one entry of
`spec.description.input`). -/
structure InputDesc where
  name : String
  type : InputType
  deriving DecidableEq

/-- The numeric parameters of an `innerProduct` (fully-connected) layer:
recorded input/output channel counts, the flattened weight sequence
(`weights.floatValue`) and the bias values. Floating-point values are
modelled as rationals. -/
structure FCParams where
  inputChannels : Nat
  outputChannels : Nat
  weights : List Rat
  bias : List Rat
  deriving DecidableEq

/-- The `WhichOneof("layer")` discrimination: an inner-product layer with
its parameters, or any other layer kind (opaque to the patch). -/
inductive LayerParams where
  | innerProduct (ip : FCParams) : LayerParams
  | other : LayerParams
  deriving DecidableEq

/-- A layer of the converted network: its list of input blob names and its
kind-specific parameters. -/
structure Layer where
  input : List String
  params : LayerParams
  deriving DecidableEq

/-- The sections of the converted model spec that the patch step reads and
writes: the ordered input descriptors and the ordered layer list. -/
structure ModelSpec where
  input : List InputDesc
  layers : List Layer
  deriving DecidableEq

/-- Whether `needle` occurs as a contiguous substring of `hay` (the Python
`in` operator on strings, over explicit character lists). -/
def charSub (needle : List Char) : List Char → Bool
  | [] => needle.isEmpty
  | c :: t => needle.isPrefixOf (c :: t) || charSub needle t

/-- The characters of `s` lowercased (the Python `s.lower()`). -/
def lowerStr (s : String) : List Char :=
  s.toList.map Char.toLower

/-- The case-insensitive name check of the layer scan: the Python
expression `"facegrid" in inp.lower() or "grid" in inp.lower()`. -/
def gridName (s : String) : Bool :=
  charSub "facegrid".toList (lowerStr s) || charSub "grid".toList (lowerStr s)

/-- The layer-scan guard: some input name of the layer matches. -/
def layerMatches (l : Layer) : Bool :=
  l.input.any gridName

/-- Replace the first element equal to `oldSize` by `newSize` and stop
(the dimension loop of `expand_facegrid_input`, which ends in `break`). -/
def setFirstDim (oldSize newSize : Nat) : List Nat → List Nat
  | [] => []
  | d :: ds => if d = oldSize then newSize :: ds else d :: setFirstDim oldSize newSize ds

/-- The input-descriptor update of `expand_facegrid_input`: an input named
exactly `"facegrid"` whose type is a multi-array gets its first dimension
equal to `oldSize` replaced by `newSize`; every other input is returned
unchanged. -/
def updateInput (oldSize newSize : Nat) (inp : InputDesc) : InputDesc :=
  if inp.name = "facegrid" then
    match inp.type with
    | InputType.multiArray shape =>
        { inp with type := InputType.multiArray (setFirstDim oldSize newSize shape) }
    | _ => inp
  else inp

/-- The padded weight block: `rows` rows are read off the flattened
sequence `w` with stride `oldSize` (the numpy `reshape`), each row is
extended by `pad` zero entries (the zero-column concatenation), and the
rows are flattened back. -/
def padWeights (oldSize pad : Nat) : Nat → List Rat → List Rat
  | 0, _ => []
  | rows + 1, w =>
      (w.take oldSize ++ List.replicate pad 0) ++ padWeights oldSize pad rows (w.drop oldSize)

/-- The weight-padding transform on one inner-product layer's parameters:
the input-channel count becomes `newSize` and the weight sequence is
re-flattened from the padded matrix. `none` models the `ValueError` numpy
raises when the flattened weight length does not factor as
`outputChannels × oldSize`. -/
def patchLayer (oldSize newSize : Nat) (ip : FCParams) : Option FCParams :=
  if ip.weights.length = ip.outputChannels * oldSize then
    some { ip with
             inputChannels := newSize
             weights := padWeights oldSize (newSize - oldSize) ip.outputChannels ip.weights }
  else none

/-- The layer scan of `expand_facegrid_input`: walk the layers in
declaration order; at the first inner-product layer whose input names
match `gridName` and whose recorded input-channel count equals `oldSize`,
apply the weight padding and stop (`break`); every other layer — matching
inner-product layers with a different channel count included — is kept and
the scan continues. `none` models the fatal reshape error. -/
def patchLayers (oldSize newSize : Nat) : List Layer → Option (List Layer)
  | [] => some []
  | l :: ls =>
      match l.params with
      | LayerParams.innerProduct ip =>
          if layerMatches l ∧ ip.inputChannels = oldSize then
            match patchLayer oldSize newSize ip with
            | some ip2 => some ({ l with params := LayerParams.innerProduct ip2 } :: ls)
            | none => none
          else
            Option.map (fun t => l :: t) (patchLayers oldSize newSize ls)
      | LayerParams.other =>
          Option.map (fun t => l :: t) (patchLayers oldSize newSize ls)

/-- The function `expand_facegrid_input`: update the facegrid input
shapes, then patch the first matching fully-connected layer. `none` models the uncaught
reshape exception, which aborts the whole conversion. -/
def expand_facegrid_input (oldSize newSize : Nat) (m : ModelSpec) : Option ModelSpec :=
  Option.map
    (fun ls => { input := m.input.map (updateInput oldSize newSize), layers := ls })
    (patchLayers oldSize newSize m.layers)

/-- Dot product of two flat sequences (the shorter one zero-extended). -/
def dot : List Rat → List Rat → Rat
  | [], _ => 0
  | _, [] => 0
  | a :: as, b :: bs => a * b + dot as bs

/-- Row `r` of the weight matrix of a fully-connected layer, read off the
flattened sequence with stride `inputChannels`. -/
def layerRow (ip : FCParams) (r : Nat) : List Rat :=
  (ip.weights.drop (r * ip.inputChannels)).take ip.inputChannels

/-- Modelled from the spec: the numerical semantics of a fully-connected
(inner-product) layer, `y = W x + b`. At run time this computation is
performed by the CoreML inference engine, not by code of this repository;
the definition follows the spec's description of the layer (weight matrix
flattened to a linear sequence, output and input dimensionalities). -/
def fcOutput (ip : FCParams) (x : List Rat) : List Rat :=
  (List.range ip.outputChannels).map (fun r => dot (layerRow ip r) x + ip.bias.getD r 0)

/-- The recorded input-channel count of a layer (0 for non-FC layers). -/
def layerChannels (l : Layer) : Nat :=
  match l.params with
  | LayerParams.innerProduct ip => ip.inputChannels
  | LayerParams.other => 0

/-- Whether a layer is an inner-product (fully-connected) layer. -/
def isInnerProduct (l : Layer) : Bool :=
  match l.params with
  | LayerParams.innerProduct _ => true
  | LayerParams.other => false

/-- The layers the scan actually patches: inner-product, matching input
name, and input-channel count exactly `oldSize`. -/
def patchTarget (oldSize : Nat) (l : Layer) : Bool :=
  isInnerProduct l && layerMatches l && decide (layerChannels l = oldSize)

/-- The input type has its `multiArrayType` field set. -/
def hasMultiArray : InputType → Bool
  | InputType.multiArray _ => true
  | _ => false

/-- The shape dimensions of an input type (`[]` when not a multi-array). -/
def typeDims : InputType → List Nat
  | InputType.multiArray shape => shape
  | _ => []

/-- The per-layer shape invariant as the spec words it: the declared input
dimensionality equals the flattened weight length divided by the output
dimensionality (trivially true for non-FC layers). -/
def shapeOK (l : Layer) : Bool :=
  match l.params with
  | LayerParams.innerProduct ip =>
      decide (ip.inputChannels = ip.weights.length / ip.outputChannels)
  | LayerParams.other => true

/-- The environment `main` runs in: whether the conversion library is
importable, whether each input file exists, the model the conversion call
would produce (`none` = the converter raises), and whether the
full-precision save and the quantize-and-save steps succeed. -/
structure Env where
  ctImportable : Bool
  prototxtExists : Bool
  caffemodelExists : Bool
  convertResult : Option ModelSpec
  saveOk : Bool
  quantizeOk : Bool

/-- The observable effects of one run of `main`: the diagnostic messages
printed and the output files written. -/
structure OutState where
  printedInstallHint : Bool
  printedDownloadHint : Bool
  printedQuantFailure : Bool
  converted : Bool
  fullSaved : Bool
  quantSaved : Bool
  deriving DecidableEq

/-- How a run of `main` ends: an explicit `sys.exit` / normal return with
an exit status, or an uncaught exception aborting the process. -/
inductive RunResult where
  | exited (code : Nat) (st : OutState) : RunResult
  | crashed (st : OutState) : RunResult
  deriving DecidableEq

/-- The empty effect state at process start. -/
def noEffects : OutState :=
  { printedInstallHint := false, printedDownloadHint := false,
    printedQuantFailure := false, converted := false,
    fullSaved := false, quantSaved := false }

/-- The `main` procedure, step by step: dependency check, the two input-file checks,
conversion, the facegrid patch, metadata attachment and full-precision
save, best-effort quantization (whose exceptions are caught and logged),
and the final normal return with status 0. -/
def mainRun (env : Env) : RunResult :=
  if env.ctImportable = false then
    RunResult.exited 1 { noEffects with printedInstallHint := true }
  else if env.prototxtExists = false then
    RunResult.exited 1 { noEffects with printedDownloadHint := true }
  else if env.caffemodelExists = false then
    RunResult.exited 1 { noEffects with printedDownloadHint := true }
  else
    match env.convertResult with
    | none => RunResult.crashed noEffects
    | some m =>
        match expand_facegrid_input 625 628 m with
        | none => RunResult.crashed { noEffects with converted := true }
        | some _ =>
            if env.saveOk = false then
              RunResult.crashed { noEffects with converted := true }
            else if env.quantizeOk then
              RunResult.exited 0
                { noEffects with converted := true, fullSaved := true, quantSaved := true }
            else
              RunResult.exited 0
                { noEffects with
                    converted := true
                    fullSaved := true
                    printedQuantFailure := true }

/-! Concrete instances used to exercise the theorems. -/

/-- A 625-element all-ones weight sequence (one output row). -/
def wFull : List Rat := List.replicate 625 1

/-- A fully-connected parameter block with 625 input channels. -/
def ipW : FCParams :=
  { inputChannels := 625, outputChannels := 1, weights := wFull, bias := [2] }

/-- The padded version of `ipW`. -/
def ipW2 : FCParams :=
  { inputChannels := 628, outputChannels := 1,
    weights := wFull ++ List.replicate 3 0, bias := [2] }

/-- A small matching inner-product layer with 3 input channels. -/
def gridLayer3 : Layer :=
  { input := ["grid_pool"],
    params := LayerParams.innerProduct
      { inputChannels := 3, outputChannels := 1, weights := [1, 2, 3], bias := [0] } }

/-- A matching facegrid layer with 625 input channels. -/
def facegridLayer : Layer :=
  { input := ["facegrid"], params := LayerParams.innerProduct ipW }

/-- The facegrid layer after padding. -/
def facegridLayerPatched : Layer :=
  { input := ["facegrid"], params := LayerParams.innerProduct ipW2 }

/-- Placeholder layer used as a `getD` default. -/
def dummyLayer : Layer := { input := [], params := LayerParams.other }

/-- Placeholder input descriptor used as a `getD` default. -/
def dummyInput : InputDesc := { name := "", type := InputType.other }

/-- A model with a matching 3-channel FC layer declared before the
625-channel facegrid layer. -/
def modelTwoGrid : ModelSpec :=
  { input := [{ name := "facegrid", type := InputType.multiArray [625] }],
    layers := [gridLayer3, facegridLayer] }

/-- A model whose facegrid input and matching layer already sit at 628. -/
def modelAt628 : ModelSpec :=
  { input := [{ name := "facegrid", type := InputType.multiArray [628] }],
    layers := [{ input := ["facegrid"],
                 params := LayerParams.innerProduct
                   { inputChannels := 628, outputChannels := 1,
                     weights := List.replicate 628 1, bias := [] } }] }

/-- A model with no facegrid input but with a matching 625-channel layer. -/
def modelNoInput : ModelSpec :=
  { input := [{ name := "image_face", type := InputType.image }],
    layers := [facegridLayer] }

/-- A model with one shape-correct facegrid layer and no inputs. -/
def modelShape : ModelSpec := { input := [], layers := [facegridLayer] }

/-- The empty model. -/
def emptyModel : ModelSpec := { input := [], layers := [] }

/-- A 628-element input vector whose last three entries are zero. -/
def xVec : List Rat := List.replicate 625 1 ++ [0, 0, 0]

/-- Environment with the conversion library missing. -/
def envNoDep : Env :=
  { ctImportable := false, prototxtExists := true, caffemodelExists := true,
    convertResult := none, saveOk := true, quantizeOk := true }

/-- Environment with the topology file missing. -/
def envNoFile : Env :=
  { ctImportable := true, prototxtExists := false, caffemodelExists := true,
    convertResult := none, saveOk := true, quantizeOk := true }

/-- Environment in which only the quantization step fails. -/
def envQuantFail : Env :=
  { ctImportable := true, prototxtExists := true, caffemodelExists := true,
    convertResult := some emptyModel, saveOk := true, quantizeOk := false }

/-- The model `modelNoInput` after the patch: the layer is patched even
though no facegrid input exists. -/
def modelNoInputPatched : ModelSpec :=
  { input := [{ name := "image_face", type := InputType.image }],
    layers := [facegridLayerPatched] }

/-- The model `modelShape` after the patch. -/
def modelShapePatched : ModelSpec := { input := [], layers := [facegridLayerPatched] }

/-! Helper lemmas. -/

theorem dot_nil_right (a : List Rat) : dot a [] = 0 := by
  cases a <;> simp [dot]

theorem dot_append (a b x : List Rat) :
    dot (a ++ b) x = dot a (x.take a.length) + dot b (x.drop a.length) := by
  induction a generalizing x with
  | nil => simp [dot]
  | cons hd tl ih =>
      cases x with
      | nil => simp [dot, dot_nil_right]
      | cons y ys => simp [dot, ih]; ring

theorem dot_replicate_zero (n : Nat) (x : List Rat) : dot (List.replicate n 0) x = 0 := by
  induction n generalizing x with
  | zero => simp [dot]
  | succ k ih =>
      cases x with
      | nil => simp [dot]
      | cons y ys => simp [List.replicate, dot, ih]

theorem setFirstDim_length (o n : Nat) (ds : List Nat) :
    (setFirstDim o n ds).length = ds.length := by
  induction ds with
  | nil => rfl
  | cons d t ih =>
      by_cases h : d = o <;> simp [setFirstDim, h, ih]

theorem setFirstDim_of_not_mem (o n : Nat) (ds : List Nat) (h : o ∉ ds) :
    setFirstDim o n ds = ds := by
  induction ds with
  | nil => rfl
  | cons d t ih =>
      have hd : d ≠ o := by
        intro he; exact h (by simp [he])
      have ht : o ∉ t := by
        intro hm; exact h (List.mem_cons_of_mem d hm)
      simp [setFirstDim, hd, ih ht]

theorem setFirstDim_getD_ne (o n : Nat) (ds : List Nat) (i : Nat)
    (h : ds.getD i 0 ≠ o) :
    (setFirstDim o n ds).getD i 0 = ds.getD i 0 := by
  induction ds generalizing i with
  | nil => rfl
  | cons d t ih =>
      by_cases hd : d = o
      · cases i with
        | zero => exact absurd (by simpa using hd) h
        | succ j => simp [setFirstDim, hd]
      · cases i with
        | zero => simp [setFirstDim, hd]
        | succ j =>
            simp only [setFirstDim, if_neg hd, List.getD_cons_succ]
            exact ih j (by simpa using h)

theorem setFirstDim_getD_eq (o n : Nat) (ds : List Nat) (i : Nat)
    (hlen : i < ds.length)
    (hbefore : ∀ j, j < i → ds.getD j 0 ≠ o) (hi : ds.getD i 0 = o) :
    (setFirstDim o n ds).getD i 0 = n := by
  induction ds generalizing i with
  | nil => simp at hlen
  | cons d t ih =>
      cases i with
      | zero =>
          have hd : d = o := by simpa using hi
          simp [setFirstDim, hd]
      | succ j =>
          have hd : d ≠ o := by
            have := hbefore 0 (Nat.succ_pos j)
            simpa using this
          simp only [setFirstDim, if_neg hd, List.getD_cons_succ]
          exact ih j (by simpa using hlen)
            (fun k hk => by simpa using hbefore (k + 1) (Nat.succ_lt_succ hk))
            (by simpa using hi)

theorem setFirstDim_getD_after (o n : Nat) (ds : List Nat) (i j : Nat)
    (hj : j < i) (hjo : ds.getD j 0 = o) :
    (setFirstDim o n ds).getD i 0 = ds.getD i 0 := by
  induction ds generalizing i j with
  | nil => rfl
  | cons d t ih =>
      by_cases hd : d = o
      · cases i with
        | zero => exact absurd hj (Nat.not_lt_zero j)
        | succ k => simp [setFirstDim, hd]
      · cases j with
        | zero => exact absurd (by simpa using hjo) hd
        | succ j2 =>
            cases i with
            | zero => exact absurd hj (by omega)
            | succ k =>
                simp only [setFirstDim, if_neg hd, List.getD_cons_succ]
                exact ih k j2 (by omega) (by simpa using hjo)

theorem updateInput_of_name (o n : Nat) (inp : InputDesc) (h : inp.name ≠ "facegrid") :
    updateInput o n inp = inp := by
  simp [updateInput, h]

theorem updateInput_of_no_array (o n : Nat) (inp : InputDesc)
    (h : hasMultiArray inp.type = false) :
    updateInput o n inp = inp := by
  unfold updateInput
  by_cases hn : inp.name = "facegrid"
  · simp only [hn, if_pos rfl]
    cases htype : inp.type with
    | image => rfl
    | multiArray shape => rw [htype] at h; simp [hasMultiArray] at h
    | other => rfl
  · simp [hn]

theorem updateInput_facegrid (o n : Nat) (inp : InputDesc) (shape : List Nat)
    (hn : inp.name = "facegrid") (ht : inp.type = InputType.multiArray shape) :
    updateInput o n inp =
      { inp with type := InputType.multiArray (setFirstDim o n shape) } := by
  unfold updateInput
  simp only [hn, if_pos rfl]
  cases inp with
  | mk nm tp =>
      simp only at ht
      subst ht
      rfl

theorem updateInput_of_not_mem (o n : Nat) (inp : InputDesc)
    (h : o ∉ typeDims inp.type) :
    updateInput o n inp = inp := by
  by_cases hn : inp.name = "facegrid"
  · cases htype : inp.type with
    | image => exact updateInput_of_no_array o n inp (by rw [htype]; rfl)
    | other => exact updateInput_of_no_array o n inp (by rw [htype]; rfl)
    | multiArray shape =>
        rw [updateInput_facegrid o n inp shape hn htype]
        rw [htype, typeDims] at h
        rw [setFirstDim_of_not_mem o n shape h, ← htype]
  · exact updateInput_of_name o n inp hn

theorem padWeights_length (s p : Nat) (o : Nat) (w : List Rat) (h : w.length = o * s) :
    (padWeights s p o w).length = o * (s + p) := by
  induction o generalizing w with
  | zero => simp [padWeights]
  | succ n ih =>
      have hs : s ≤ w.length := by
        rw [h, Nat.succ_mul]; omega
      have hdrop : (w.drop s).length = n * s := by
        rw [List.length_drop, h, Nat.succ_mul]; omega
      simp only [padWeights, List.length_append, List.length_take, List.length_replicate,
        ih (w.drop s) hdrop, Nat.min_eq_left hs]
      ring

theorem padWeights_row (s p : Nat) (o r : Nat) (w : List Rat)
    (h : w.length = o * s) (hr : r < o) :
    ((padWeights s p o w).drop (r * (s + p))).take (s + p) =
      (w.drop (r * s)).take s ++ List.replicate p 0 := by
  induction o generalizing w r with
  | zero => exact absurd hr (Nat.not_lt_zero r)
  | succ n ih =>
      have hs : s ≤ w.length := by
        rw [h, Nat.succ_mul]; omega
      have hchunk : (w.take s ++ List.replicate p 0).length = s + p := by
        simp [List.length_take, List.length_replicate, Nat.min_eq_left hs]
      cases r with
      | zero =>
          simp only [padWeights, Nat.zero_mul, List.drop_zero]
          rw [← hchunk, List.take_left]
      | succ r2 =>
          have hsplit : (r2 + 1) * (s + p) =
              (w.take s ++ List.replicate p 0).length + r2 * (s + p) := by
            rw [hchunk, Nat.succ_mul, Nat.add_comm]
          have hdrop : (w.drop s).length = n * s := by
            rw [List.length_drop, h, Nat.succ_mul]; omega
          simp only [padWeights]
          rw [hsplit, List.drop_append, ih r2 (w.drop s) hdrop (by omega), List.drop_drop]
          have : s + r2 * s = (r2 + 1) * s := by rw [Nat.succ_mul, Nat.add_comm]
          rw [this]

theorem padWeights_getD (s p o r c : Nat) (w : List Rat)
    (h : w.length = o * s) (hr : r < o) (hc : c < s + p) :
    (padWeights s p o w).getD (r * (s + p) + c) 0 =
      if c < s then w.getD (r * s + c) 0 else 0 := by
  have hrow := padWeights_row s p o r w h hr
  have key : (padWeights s p o w)[r * (s + p) + c]? =
      ((w.drop (r * s)).take s ++ List.replicate p 0)[c]? := by
    rw [← hrow, List.getElem?_take, if_pos hc, List.getElem?_drop]
  have hrs : r * s + s ≤ o * s := by
    calc r * s + s = (r + 1) * s := by rw [Nat.succ_mul]
    _ ≤ o * s := Nat.mul_le_mul_right s (Nat.succ_le_of_lt hr)
  have hlenrow : ((w.drop (r * s)).take s).length = s := by
    rw [List.length_take, List.length_drop, h]
    omega
  rw [List.getD_eq_getElem?_getD, key, List.getElem?_append]
  by_cases hcs : c < s
  · rw [if_pos hcs, hlenrow, if_pos hcs, List.getElem?_take, if_pos hcs,
      List.getElem?_drop, ← List.getD_eq_getElem?_getD]
  · rw [hlenrow, if_neg hcs, List.getElem?_replicate, if_pos (by omega), if_neg hcs]
    rfl

theorem patchLayer_some (o n2 : Nat) (ip ip2 : FCParams)
    (h : patchLayer o n2 ip = some ip2) :
    ip.weights.length = ip.outputChannels * o ∧
    ip2 = { ip with
              inputChannels := n2
              weights := padWeights o (n2 - o) ip.outputChannels ip.weights } := by
  unfold patchLayer at h
  split at h
  · exact ⟨by assumption, (Option.some.inj h).symm⟩
  · cases h

theorem patchLayers_split (o n2 : Nat) (ls ls2 : List Layer)
    (h : patchLayers o n2 ls = some ls2) :
    (ls.dropWhile (fun l => !patchTarget o l) = [] ∧ ls2 = ls) ∨
    (∃ t tail ip ip2,
        ls.dropWhile (fun l => !patchTarget o l) = t :: tail ∧
        patchTarget o t = true ∧
        t.params = LayerParams.innerProduct ip ∧
        patchLayer o n2 ip = some ip2 ∧
        ls2 = ls.takeWhile (fun l => !patchTarget o l) ++
              { t with params := LayerParams.innerProduct ip2 } :: tail) := by
  induction ls generalizing ls2 with
  | nil =>
      left
      simp only [patchLayers, Option.some.injEq] at h
      exact ⟨rfl, h.symm⟩
  | cons l ls ih =>
      cases hp : l.params with
      | innerProduct ip =>
          by_cases hcond : layerMatches l ∧ ip.inputChannels = o
          · have htarget : patchTarget o l = true := by
              simp [patchTarget, isInnerProduct, layerChannels, hp, hcond.1, hcond.2]
            simp only [patchLayers, hp, if_pos hcond] at h
            cases hpl : patchLayer o n2 ip with
            | none => rw [hpl] at h; cases h
            | some ip2 =>
                rw [hpl] at h
                right
                refine ⟨l, ls, ip, ip2, ?_, htarget, hp, hpl, ?_⟩
                · simp [List.dropWhile_cons, htarget]
                · simp only [List.takeWhile_cons, htarget, Bool.not_true, if_false,
                    List.nil_append]
                  simpa using (Option.some.inj h).symm
          · have htarget : patchTarget o l = false := by
              simp only [patchTarget, isInnerProduct, layerChannels, hp, Bool.and_eq_false_iff]
              by_cases hm : layerMatches l
              · right
                simp only [decide_eq_false_iff_not]
                intro hch
                exact hcond ⟨hm, hch⟩
              · left
                right
                simpa using hm
            simp only [patchLayers, hp, if_neg hcond] at h
            cases hrec : patchLayers o n2 ls with
            | none => rw [hrec] at h; cases h
            | some ls0 =>
                rw [hrec] at h
                have hls2 : ls2 = l :: ls0 := by
                  simpa using (Option.some.inj h).symm
                rcases ih ls0 hrec with ⟨hdw, heq⟩ | ⟨t, tail, ip3, ip4, hdw, ht, hps, hpl, heq⟩
                · left
                  constructor
                  · simp [List.dropWhile_cons, htarget, hdw]
                  · rw [hls2, heq]
                · right
                  refine ⟨t, tail, ip3, ip4, ?_, ht, hps, hpl, ?_⟩
                  · simp [List.dropWhile_cons, htarget, hdw]
                  · rw [hls2, heq]
                    simp [List.takeWhile_cons, htarget]
      | other =>
          have htarget : patchTarget o l = false := by
            simp [patchTarget, isInnerProduct, hp]
          simp only [patchLayers, hp] at h
          cases hrec : patchLayers o n2 ls with
          | none => rw [hrec] at h; cases h
          | some ls0 =>
              rw [hrec] at h
              have hls2 : ls2 = l :: ls0 := by
                simpa using (Option.some.inj h).symm
              rcases ih ls0 hrec with ⟨hdw, heq⟩ | ⟨t, tail, ip3, ip4, hdw, ht, hps, hpl, heq⟩
              · left
                constructor
                · simp [List.dropWhile_cons, htarget, hdw]
                · rw [hls2, heq]
              · right
                refine ⟨t, tail, ip3, ip4, ?_, ht, hps, hpl, ?_⟩
                · simp [List.dropWhile_cons, htarget, hdw]
                · rw [hls2, heq]
                  simp [List.takeWhile_cons, htarget]

theorem patchLayers_noop (o n2 : Nat) (ls : List Layer)
    (h : ∀ l ∈ ls, patchTarget o l = false) :
    patchLayers o n2 ls = some ls := by
  induction ls with
  | nil => rfl
  | cons l ls ih =>
      have hl := h l (List.mem_cons_self l ls)
      have hrest : patchLayers o n2 ls = some ls :=
        ih (fun l2 hm => h l2 (List.mem_cons_of_mem l hm))
      cases hp : l.params with
      | innerProduct ip =>
          have hcond : ¬(layerMatches l ∧ ip.inputChannels = o) := by
            intro ⟨hm, hch⟩
            rw [patchTarget, isInnerProduct, hp] at hl
            simp only [layerChannels, hp, hm, hch] at hl
            simp at hl
          simp [patchLayers, hp, if_neg hcond, hrest]
      | other =>
          simp [patchLayers, hp, hrest]

/-- C1: for every fully-connected layer with output channels `O` and input
channels 625 that the patch step transforms, the patched flattened weight
sequence, read as an `(O, 628)` matrix, agrees with the original weights
read as an `(O, 625)` matrix in its first 625 columns, its last 3 columns
are exactly zero, and the recorded input-channel count becomes 628. -/
theorem c1_weight_padding (ip ip2 : FCParams) (r c : Nat)
    (hin : ip.inputChannels = 625)
    (hp : patchLayer 625 628 ip = some ip2)
    (hr : r < ip.outputChannels) (hc : c < 628) :
    ip2.inputChannels = 628 ∧
    ip2.weights.length = ip.outputChannels * 628 ∧
    ip2.weights.getD (r * 628 + c) 0 =
      if c < 625 then ip.weights.getD (r * 625 + c) 0 else 0 := by
  obtain ⟨hlen, heq⟩ := patchLayer_some 625 628 ip ip2 hp
  subst heq
  refine ⟨rfl, ?_, ?_⟩
  · have := padWeights_length 625 3 ip.outputChannels ip.weights hlen
    simpa using this
  · have := padWeights_getD 625 3 ip.outputChannels r c ip.weights hlen hr (by omega)
    simpa using this

set_option maxRecDepth 100000 in
theorem c1_weight_padding_witness :
    ipW.inputChannels = 625 ∧ patchLayer 625 628 ipW = some ipW2 ∧
    (ipW2.weights.getD (0 * 628 + 624) 0 =
        if 624 < 625 then ipW.weights.getD (0 * 625 + 624) 0 else 0) ∧
    (ipW2.weights.getD (0 * 628 + 627) 0 =
        if 627 < 625 then ipW.weights.getD (0 * 625 + 627) 0 else 0) :=
  ⟨by decide, by decide,
    (c1_weight_padding ipW ipW2 0 624 (by decide) (by decide) (by decide) (by decide)).2.2,
    (c1_weight_padding ipW ipW2 0 627 (by decide) (by decide) (by decide) (by decide)).2.2⟩

/-- C2: for any `O × 625` weight matrix, any bias vector, and any
628-element input whose last 3 entries are 0, the patched layer (weights
padded with 3 zero columns, bias unchanged) produces exactly the output
the unpatched layer produces on the first 625 entries of that input. -/
theorem c2_numerical_equiv (ip ip2 : FCParams) (x : List Rat)
    (hin : ip.inputChannels = 625)
    (hp : patchLayer 625 628 ip = some ip2)
    (hx : x.length = 628)
    (hz : x.drop 625 = [0, 0, 0]) :
    fcOutput ip2 x = fcOutput ip (x.take 625) := by
  obtain ⟨hlen, heq⟩ := patchLayer_some 625 628 ip ip2 hp
  subst heq
  unfold fcOutput
  apply List.map_congr_left
  intro r hr
  rw [List.mem_range] at hr
  simp only []
  congr 1
  have hrow2 :
      layerRow
        { ip with
            inputChannels := 628
            weights := padWeights 625 (628 - 625) ip.outputChannels ip.weights } r =
      (ip.weights.drop (r * 625)).take 625 ++ List.replicate 3 0 := by
    unfold layerRow
    have := padWeights_row 625 3 ip.outputChannels r ip.weights hlen hr
    simpa using this
  rw [hrow2, dot_append]
  have hrowlen : ((ip.weights.drop (r * 625)).take 625).length = 625 := by
    rw [List.length_take, List.length_drop, hlen]
    have : r * 625 + 625 ≤ ip.outputChannels * 625 := by
      calc r * 625 + 625 = (r + 1) * 625 := by rw [Nat.succ_mul]
      _ ≤ ip.outputChannels * 625 := Nat.mul_le_mul_right 625 (Nat.succ_le_of_lt hr)
    omega
  rw [hrowlen, dot_replicate_zero, add_zero]
  unfold layerRow
  rw [hin]

set_option maxRecDepth 100000 in
theorem c2_numerical_equiv_witness :
    ipW.inputChannels = 625 ∧ patchLayer 625 628 ipW = some ipW2 ∧
    xVec.length = 628 ∧ xVec.drop 625 = [0, 0, 0] ∧
    fcOutput ipW2 xVec = fcOutput ipW (xVec.take 625) :=
  ⟨by decide, by decide, by decide, by decide,
    c2_numerical_equiv ipW ipW2 xVec (by decide) (by decide) (by decide) (by decide)⟩

set_option maxRecDepth 100000 in
/-- C3 counterexample: in `modelTwoGrid` the first fully-connected layer
whose input-name list matches ("grid" substring) is `gridLayer3`, whose
recorded input-channel count is 3, not 625 — yet the patch step still
modifies a later layer: the second layer's input-channel count goes from
625 to 628. This refutes the claim that when the first matching layer's
channel count is not 625 "no layer at all is modified". -/
theorem c3_counterexample :
    isInnerProduct (modelTwoGrid.layers.getD 0 dummyLayer) = true ∧
    layerMatches (modelTwoGrid.layers.getD 0 dummyLayer) = true ∧
    layerChannels (modelTwoGrid.layers.getD 0 dummyLayer) = 3 ∧
    layerChannels (modelTwoGrid.layers.getD 1 dummyLayer) = 625 ∧
    Option.map (fun m => layerChannels (m.layers.getD 1 dummyLayer))
        (expand_facegrid_input 625 628 modelTwoGrid) = some 628 := by
  refine ⟨rfl, by decide, rfl, rfl, ?_⟩
  rfl

/-- C3 (amended): the layer scan patches the first layer that is
fully-connected, has a matching input name, and records exactly 625 input
channels, and stops there; matching fully-connected layers with a
different channel count are skipped unmodified and the scan continues past
them, so at most one layer is ever patched. -/
theorem c3_first_full_match (ls ls2 : List Layer)
    (h : patchLayers 625 628 ls = some ls2) :
    (ls.dropWhile (fun l => !patchTarget 625 l) = [] → ls2 = ls) ∧
    (∀ t tail, ls.dropWhile (fun l => !patchTarget 625 l) = t :: tail →
        ∃ ip ip2, t.params = LayerParams.innerProduct ip ∧
          patchLayer 625 628 ip = some ip2 ∧
          ls2 = ls.takeWhile (fun l => !patchTarget 625 l) ++
                { t with params := LayerParams.innerProduct ip2 } :: tail) := by
  rcases patchLayers_split 625 628 ls ls2 h with
    ⟨hdw, heq⟩ | ⟨t, tail, ip, ip2, hdw, _, hps, hpl, heq⟩
  · constructor
    · intro _; exact heq
    · intro t tail hcons
      rw [hdw] at hcons
      cases hcons
  · constructor
    · intro hnil
      rw [hdw] at hnil
      cases hnil
    · intro t2 tail2 hcons
      rw [hdw] at hcons
      injection hcons with h1 h2
      subst h1
      subst h2
      exact ⟨ip, ip2, hps, hpl, heq⟩

set_option maxRecDepth 100000 in
theorem c3_first_full_match_witness :
    patchLayers 625 628 [gridLayer3, facegridLayer] =
      some [gridLayer3, facegridLayerPatched] ∧
    (∃ ip ip2, facegridLayer.params = LayerParams.innerProduct ip ∧
        patchLayer 625 628 ip = some ip2 ∧
        ([gridLayer3, facegridLayerPatched] : List Layer) =
          List.takeWhile (fun l => !patchTarget 625 l) [gridLayer3, facegridLayer] ++
            { facegridLayer with params := LayerParams.innerProduct ip2 } :: []) :=
  ⟨by decide,
    (c3_first_full_match [gridLayer3, facegridLayer] [gridLayer3, facegridLayerPatched]
        (by decide)).2 facegridLayer [] (by decide)⟩

/-- C4: applying the facegrid patch to a model whose facegrid input
dimensions are already 628 (none equal to 625) and whose matching
fully-connected layers already record 628 input channels is a no-op: no
input dimension and no weight sequence is changed. -/
theorem c4_noop_at_628 (m : ModelSpec)
    (hin : ∀ inp ∈ m.input, inp.name = "facegrid" → 625 ∉ typeDims inp.type)
    (hl : ∀ l ∈ m.layers, isInnerProduct l = true → layerMatches l = true →
        layerChannels l = 628) :
    expand_facegrid_input 625 628 m = some m := by
  unfold expand_facegrid_input
  have hlayers : patchLayers 625 628 m.layers = some m.layers := by
    apply patchLayers_noop
    intro l hml
    by_cases hipq : isInnerProduct l = true
    · by_cases hm2 : layerMatches l = true
      · have hch := hl l hml hipq hm2
        simp [patchTarget, hipq, hm2, hch]
      · simp [patchTarget, Bool.eq_false_iff.mpr hm2]
    · simp [patchTarget, Bool.eq_false_iff.mpr hipq]
  have hmap : m.input.map (updateInput 625 628) = m.input := by
    calc m.input.map (updateInput 625 628)
        = m.input.map id := by
          apply List.map_congr_left
          intro inp hmem
          by_cases hn : inp.name = "facegrid"
          · exact updateInput_of_not_mem 625 628 inp (hin inp hmem hn)
          · exact updateInput_of_name 625 628 inp hn
      _ = m.input := List.map_id m.input
  rw [hlayers, hmap]
  cases m
  rfl

theorem c4_noop_at_628_witness :
    (∀ inp ∈ modelAt628.input, inp.name = "facegrid" → 625 ∉ typeDims inp.type) ∧
    expand_facegrid_input 625 628 modelAt628 = some modelAt628 :=
  ⟨by decide, c4_noop_at_628 modelAt628 (by decide) (by decide)⟩

/-- C5: if every layer of a model satisfies the shape invariant (declared
input channels = flattened weight length / output channels) then, when the
patch step succeeds, every layer of the patched model satisfies it too. -/
theorem c5_shape_invariant (m m2 : ModelSpec) (l : Layer)
    (hinv : ∀ l2 ∈ m.layers, shapeOK l2 = true)
    (h : expand_facegrid_input 625 628 m = some m2)
    (hl : l ∈ m2.layers) :
    shapeOK l = true := by
  unfold expand_facegrid_input at h
  cases hrec : patchLayers 625 628 m.layers with
  | none => rw [hrec] at h; cases h
  | some ls2 =>
      rw [hrec] at h
      have hth : m2 = { input := m.input.map (updateInput 625 628), layers := ls2 } :=
        (Option.some.inj (by simpa using h)).symm
      have hm2 : m2.layers = ls2 := by rw [hth]
      rw [hm2] at hl
      rcases patchLayers_split 625 628 m.layers ls2 hrec with
        ⟨_, heq⟩ | ⟨t, tail, ip, ip2, hdw, htarget, hps, hpl, heq⟩
      · rw [heq] at hl
        exact hinv l hl
      · have hdecomp :=
          List.takeWhile_append_dropWhile (fun l2 => !patchTarget 625 l2) m.layers
        rw [hdw] at hdecomp
        rw [heq] at hl
        rcases List.mem_append.mp hl with hpre | hrest
        · refine hinv l ?_
          rw [← hdecomp]
          exact List.mem_append_left _ hpre
        · rcases List.mem_cons.mp hrest with hpatched | htail
          · obtain ⟨hlen, heq2⟩ := patchLayer_some 625 628 ip ip2 hpl
            have htmem : t ∈ m.layers := by
              rw [← hdecomp]
              exact List.mem_append_right _ (List.mem_cons_self t tail)
            have hshape_t := hinv t htmem
            have hch : ip.inputChannels = 625 := by
              rw [patchTarget, layerChannels, hps] at htarget
              simp only [Bool.and_eq_true, decide_eq_true_eq] at htarget
              exact htarget.2
            have hdiv : ip.inputChannels = ip.weights.length / ip.outputChannels := by
              rw [shapeOK, hps] at hshape_t
              simpa using hshape_t
            have hpos : 0 < ip.outputChannels := by
              rcases Nat.eq_zero_or_pos ip.outputChannels with hz | hz
              · rw [hz, Nat.mul_comm] at hlen
                rw [hlen] at hdiv
                simp [hz] at hdiv
                omega
              · exact hz
            rw [hpatched, shapeOK]
            simp only [heq2]
            have hlen3 : (padWeights 625 (628 - 625) ip.outputChannels ip.weights).length =
                ip.outputChannels * 628 := by
              have := padWeights_length 625 3 ip.outputChannels ip.weights hlen
              simpa using this
            rw [hlen3, Nat.mul_div_cancel_left 628 hpos]
            simp
          · refine hinv l ?_
            rw [← hdecomp]
            exact List.mem_append_right _ (List.mem_cons_of_mem t htail)

set_option maxRecDepth 100000 in
theorem c5_shape_invariant_witness :
    (∀ l2 ∈ modelShape.layers, shapeOK l2 = true) ∧
    expand_facegrid_input 625 628 modelShape = some modelShapePatched ∧
    shapeOK facegridLayerPatched = true :=
  ⟨by decide, by decide,
    c5_shape_invariant modelShape modelShapePatched facegridLayerPatched
      (by decide) (by decide) (by decide)⟩

/-- C6: when the conversion library imports but either input file is
absent, the run prints the error with the download source, exits with
status 1, writes neither output file, and performs no conversion or patch
work. -/
theorem c6_missing_input (env : Env)
    (hct : env.ctImportable = true)
    (h : env.prototxtExists = false ∨ env.caffemodelExists = false) :
    mainRun env = RunResult.exited 1
      { printedInstallHint := false, printedDownloadHint := true,
        printedQuantFailure := false, converted := false,
        fullSaved := false, quantSaved := false } := by
  unfold mainRun
  rw [hct]
  rcases h with hp | hc
  · rw [hp]
    rfl
  · cases hp : env.prototxtExists with
    | false => rfl
    | true =>
        rw [hc]
        rfl

theorem c6_missing_input_witness :
    envNoFile.ctImportable = true ∧ envNoFile.prototxtExists = false ∧
    mainRun envNoFile = RunResult.exited 1
      { printedInstallHint := false, printedDownloadHint := true,
        printedQuantFailure := false, converted := false,
        fullSaved := false, quantSaved := false } :=
  ⟨rfl, rfl, c6_missing_input envNoFile rfl (Or.inl rfl)⟩

/-- C7: when everything up to the full-precision save succeeds and the
quantization call raises, the exception is caught and logged, the
full-precision output file is still written and unaffected, the quantized
file is not written, and the run exits with status 0. -/
theorem c7_quant_failure (env : Env) (m m2 : ModelSpec)
    (hct : env.ctImportable = true)
    (hp : env.prototxtExists = true)
    (hc : env.caffemodelExists = true)
    (hconv : env.convertResult = some m)
    (hpatch : expand_facegrid_input 625 628 m = some m2)
    (hsave : env.saveOk = true)
    (hq : env.quantizeOk = false) :
    mainRun env = RunResult.exited 0
      { printedInstallHint := false, printedDownloadHint := false,
        printedQuantFailure := true, converted := true,
        fullSaved := true, quantSaved := false } := by
  unfold mainRun
  rw [hct, hp, hc, hconv]
  simp only [hpatch, hsave, hq]
  rfl

theorem c7_quant_failure_witness :
    envQuantFail.quantizeOk = false ∧
    expand_facegrid_input 625 628 emptyModel = some emptyModel ∧
    mainRun envQuantFail = RunResult.exited 0
      { printedInstallHint := false, printedDownloadHint := false,
        printedQuantFailure := true, converted := true,
        fullSaved := true, quantSaved := false } :=
  ⟨rfl, rfl,
    c7_quant_failure envQuantFail emptyModel emptyModel rfl rfl rfl rfl rfl rfl rfl⟩

/-- C8: when the conversion library is not importable the run prints the
installation hint and exits with status 1, and its outcome does not depend
on any other part of the environment — in particular not on whether the
input files exist — so no filesystem check or write happens first. -/
theorem c8_dependency_first (env : Env) (h : env.ctImportable = false) :
    mainRun env = RunResult.exited 1
      { printedInstallHint := true, printedDownloadHint := false,
        printedQuantFailure := false, converted := false,
        fullSaved := false, quantSaved := false } ∧
    (∀ env2 : Env, env2.ctImportable = false → mainRun env2 = mainRun env) := by
  have main_eq : ∀ e : Env, e.ctImportable = false →
      mainRun e = RunResult.exited 1
        { printedInstallHint := true, printedDownloadHint := false,
          printedQuantFailure := false, converted := false,
          fullSaved := false, quantSaved := false } := by
    intro e he
    unfold mainRun
    rw [he]
    rfl
  exact ⟨main_eq env h,
    fun env2 h2 => by rw [main_eq env2 h2, main_eq env h]⟩

theorem c8_dependency_first_witness :
    envNoDep.ctImportable = false ∧
    mainRun envNoDep = RunResult.exited 1
      { printedInstallHint := true, printedDownloadHint := false,
        printedQuantFailure := false, converted := false,
        fullSaved := false, quantSaved := false } :=
  ⟨rfl, (c8_dependency_first envNoDep rfl).1⟩

/-- C9: the input-shape update touches only inputs named exactly
"facegrid" whose type is a multi-array; inside such an input only the
first dimension equal to 625 is set to 628 and the dimension scan then
stops; dimensions different from 625, dimensions after the first match,
and all other inputs are unchanged. -/
theorem c9_input_update (inp : InputDesc) (dims : List Nat) (i : Nat) :
    (inp.name ≠ "facegrid" → updateInput 625 628 inp = inp) ∧
    (hasMultiArray inp.type = false → updateInput 625 628 inp = inp) ∧
    (inp.name = "facegrid" → inp.type = InputType.multiArray dims →
        updateInput 625 628 inp =
          { inp with type := InputType.multiArray (setFirstDim 625 628 dims) }) ∧
    ((setFirstDim 625 628 dims).length = dims.length) ∧
    (dims.getD i 0 ≠ 625 → (setFirstDim 625 628 dims).getD i 0 = dims.getD i 0) ∧
    ((∀ j, j < i → dims.getD j 0 ≠ 625) → dims.getD i 0 = 625 →
        (setFirstDim 625 628 dims).getD i 0 = 628) ∧
    (∀ j, j < i → dims.getD j 0 = 625 →
        (setFirstDim 625 628 dims).getD i 0 = dims.getD i 0) := by
  refine ⟨updateInput_of_name 625 628 inp, updateInput_of_no_array 625 628 inp,
    updateInput_facegrid 625 628 inp dims, setFirstDim_length 625 628 dims,
    setFirstDim_getD_ne 625 628 dims i, ?_,
    fun j hj hjo => setFirstDim_getD_after 625 628 dims i j hj hjo⟩
  intro hbefore hi
  have hlen : i < dims.length := by
    by_contra hge
    push_neg at hge
    rw [List.getD_eq_getElem?_getD, List.getElem?_eq_none hge] at hi
    simp at hi
  exact setFirstDim_getD_eq 625 628 dims i hlen hbefore hi

theorem c9_input_update_witness :
    updateInput 625 628 { name := "facegrid", type := InputType.multiArray [625, 625, 7] } =
      { name := "facegrid",
        type := InputType.multiArray (setFirstDim 625 628 [625, 625, 7]) } ∧
    (setFirstDim 625 628 [625, 625, 7]).getD 1 0 = ([625, 625, 7] : List Nat).getD 1 0 :=
  ⟨(c9_input_update { name := "facegrid", type := InputType.multiArray [625, 625, 7] }
      [625, 625, 7] 1).2.2.1 rfl rfl,
    (c9_input_update { name := "facegrid", type := InputType.multiArray [625, 625, 7] }
      [625, 625, 7] 1).2.2.2.2.2.2 0 (by decide) (by decide)⟩

/-- C10 (frame): `expand_facegrid_input` changes nothing except the
facegrid input shapes and the one patched layer's input-channel count and
weights: input descriptors not named "facegrid" are unchanged, the layer
list either is unchanged or differs in exactly one layer whose bias,
output-channel count and input names are preserved, and the layer patch is
independent of the declared inputs — it applies identically under any
input list, including one with no facegrid input at all. -/
theorem c10_frame (m m2 : ModelSpec) (i : Nat) (d : InputDesc)
    (h : expand_facegrid_input 625 628 m = some m2) :
    m2.input.length = m.input.length ∧
    ((m.input.getD i d).name ≠ "facegrid" → m2.input.getD i d = m.input.getD i d) ∧
    (m2.layers = m.layers ∨
      ∃ pre t tail ip ip2,
        m.layers = pre ++ t :: tail ∧
        m2.layers = pre ++ { t with params := LayerParams.innerProduct ip2 } :: tail ∧
        t.params = LayerParams.innerProduct ip ∧
        ip2.bias = ip.bias ∧ ip2.outputChannels = ip.outputChannels ∧
        ip2.inputChannels = 628) ∧
    (∀ ins : List InputDesc,
        expand_facegrid_input 625 628 { input := ins, layers := m.layers } =
          some { input := ins.map (updateInput 625 628), layers := m2.layers }) := by
  unfold expand_facegrid_input at h
  cases hrec : patchLayers 625 628 m.layers with
  | none => rw [hrec] at h; cases h
  | some ls2 =>
      rw [hrec] at h
      have hth : m2 = { input := m.input.map (updateInput 625 628), layers := ls2 } :=
        (Option.some.inj (by simpa using h)).symm
      have hm2l : m2.layers = ls2 := by rw [hth]
      have hm2i : m2.input = m.input.map (updateInput 625 628) := by rw [hth]
      refine ⟨?_, ?_, ?_, ?_⟩
      · rw [hm2i, List.length_map]
      · intro hname
        rw [hm2i]
        by_cases hi : i < m.input.length
        · have hgd : m.input.getD i d = m.input[i] := by
            rw [List.getD_eq_getElem?_getD, List.getElem?_eq_getElem hi]
            rfl
          rw [List.getD_eq_getElem?_getD, List.getD_eq_getElem?_getD, List.getElem?_map,
            List.getElem?_eq_getElem hi]
          simp only [Option.map_some', Option.getD_some]
          exact updateInput_of_name 625 628 _ (by rw [hgd] at hname; exact hname)
        · push_neg at hi
          rw [List.getD_eq_getElem?_getD, List.getD_eq_getElem?_getD, List.getElem?_map,
            List.getElem?_eq_none hi]
          rfl
      · rcases patchLayers_split 625 628 m.layers ls2 hrec with
          ⟨_, heq⟩ | ⟨t, tail, ip, ip2, hdw, htarget, hps, hpl, heq⟩
        · left
          rw [hm2l, heq]
        · right
          have hdecomp :=
            List.takeWhile_append_dropWhile (fun l2 => !patchTarget 625 l2) m.layers
          rw [hdw] at hdecomp
          obtain ⟨hlen, heq2⟩ := patchLayer_some 625 628 ip ip2 hpl
          refine ⟨m.layers.takeWhile (fun l2 => !patchTarget 625 l2), t, tail, ip, ip2,
            hdecomp.symm, by rw [hm2l, heq], hps, ?_, ?_, ?_⟩
          · rw [heq2]
          · rw [heq2]
          · rw [heq2]
      · intro ins
        unfold expand_facegrid_input
        rw [show ({ input := ins, layers := m.layers } : ModelSpec).layers = m.layers from rfl,
          hrec]
        simp [hm2l]

set_option maxRecDepth 100000 in
theorem c10_frame_witness :
    expand_facegrid_input 625 628 modelNoInput = some modelNoInputPatched ∧
    modelNoInputPatched.input.getD 0 dummyInput = modelNoInput.input.getD 0 dummyInput ∧
    expand_facegrid_input 625 628 { input := [], layers := modelNoInput.layers } =
      some { input := List.map (updateInput 625 628) [],
             layers := modelNoInputPatched.layers } :=
  ⟨by decide,
    (c10_frame modelNoInput modelNoInputPatched 0 dummyInput (by decide)).2.1 (by decide),
    (c10_frame modelNoInput modelNoInputPatched 0 dummyInput (by decide)).2.2.2 []⟩
